import Mathlib

/-!
Verification of the express user-API repository.

The repository contains two variants of the same CRUD API over an in-memory
list of user records:

* `index.js` — routes with minimal validation: a `parseInt`/`isNaN` check in
  `resolvedFindUserMiddleware`, and `checkSchema(validateUserCreationSchema)`
  (from `utils/validationSchema.js`) on POST only, with `matchedData`.
* the test app (`createTestApp` in `tests/app.test.js` and
  `tests/integration.test.js`) — the same handlers guarded by the rich
  validation chains of `validation/userValidation.js`
  (`userValidationSchemas`, `handleValidationErrors`).

Both are embedded below.  Request bodies are modelled with optional string
fields for `username`/`displayName`, an optional numeric `id` key, and a list
of further key names (`extra`); path parameters are strings.
-/

/-! ## JS string primitives -/

/-- Numeric value of a list of decimal digit characters. -/
def digitsToNat (ds : List Char) : Nat :=
  ds.foldl (fun a c => a * 10 + (c.toNat - '0'.toNat)) 0

/-- validator.js `isInt` syntax: optional sign followed by one or more digits
(the whole string must match). -/
def jsStrIsInt (s : String) : Bool :=
  match s.data with
  | [] => false
  | c :: rest =>
    if c = '+' ∨ c = '-' then !rest.isEmpty && rest.all Char.isDigit
    else (c :: rest).all Char.isDigit

/-- Signed value of a string already known to satisfy `jsStrIsInt`. -/
def strSignedVal (s : String) : Int :=
  match s.data with
  | '-' :: rest => -(digitsToNat rest : Int)
  | '+' :: rest => (digitsToNat rest : Int)
  | ds => (digitsToNat ds : Int)

/-- express-validator `param("id").isInt({ min: 1 })`. -/
def isIntMin1 (s : String) : Bool :=
  jsStrIsInt s && decide (1 ≤ strSignedVal s)

/-- JS `parseInt`: skip leading whitespace, optional sign, then the longest
digit run; `NaN` (modelled as `none`) when no digit follows. -/
def jsParseInt (s : String) : Option Int :=
  let cs := s.data.dropWhile (fun c => c = ' ' ∨ c = '\t' ∨ c = '\n' ∨ c = '\r')
  match cs with
  | '-' :: rest =>
    let ds := rest.takeWhile Char.isDigit
    if ds.isEmpty then none else some (-(digitsToNat ds : Int))
  | '+' :: rest =>
    let ds := rest.takeWhile Char.isDigit
    if ds.isEmpty then none else some (digitsToNat ds : Int)
  | rest =>
    let ds := rest.takeWhile Char.isDigit
    if ds.isEmpty then none else some (digitsToNat ds : Int)

/-- JS `String.prototype.includes`: contiguous substring test
(case-sensitive). -/
def strContains (s pat : String) : Bool :=
  (List.range (s.data.length + 1)).any (fun i => pat.data.isPrefixOf (s.data.drop i))

/-- JS `String.prototype.trim`. -/
def jsTrim (s : String) : String :=
  ⟨((s.data.dropWhile Char.isWhitespace).reverse.dropWhile Char.isWhitespace).reverse⟩

/-- The regex `^[a-zA-Z0-9_]+$` of the username `matches` check. -/
def usernamePatternB (s : String) : Bool :=
  !s.data.isEmpty && s.data.all (fun c => c.isAlphanum || c = '_')

/-! ## Data model -/

/-- A user record of the store (`mockedUsers`).  `index.js`'s raw PUT handler
can produce records lacking `username`/`displayName`, hence the options. -/
structure User where
  id : Int
  username : Option String
  displayName : Option String
deriving DecidableEq, Repr

/-- A parsed JSON request body: the two known fields, an optional numeric
`id` key, and the names of any further keys.  `extra` is assumed not to
repeat `username`, `displayName` or `id` (JS object keys are unique). -/
structure Body where
  username : Option String
  displayName : Option String
  idField : Option Int
  extra : List String
deriving DecidableEq, Repr

/-- The seed store (`mockedUsers` in `index.js` and in `createTestApp`). -/
def seedUsers : List User :=
  [ ⟨1, some "johndoe", some "John Doe"⟩,
    ⟨2, some "janedoe", some "Jane Doe"⟩,
    ⟨3, some "sundar2025", some "Sundaresh"⟩,
    ⟨4, some "coolcoder", some "Code Master"⟩,
    ⟨5, some "techqueen", some "Tech Queen"⟩ ]

/-- The ids of a store, in store order. -/
def idsOf (l : List User) : List Int := l.map (fun u => u.id)

/-- Maximum id, as `1 + max(existing ids)` reads it (0 on an empty store). -/
def maxId (l : List User) : Int := (idsOf l).foldr max 0

/-- Store ids strictly increase left to right. -/
def SortedIds (l : List User) : Prop := (idsOf l).Pairwise (fun a b => a < b)

/-- Every id in the store is positive. -/
def PosIds (l : List User) : Prop := ∀ i ∈ idsOf l, 1 ≤ i

/-- The store invariant: strictly increasing, positive ids. -/
def StoreInv (l : List User) : Prop := SortedIds l ∧ PosIds l

instance (l : List User) : Decidable (SortedIds l) :=
  inferInstanceAs (Decidable (List.Pairwise (fun a b => a < b) (idsOf l)))

instance (l : List User) : Decidable (PosIds l) :=
  inferInstanceAs (Decidable (∀ i ∈ idsOf l, 1 ≤ i))

instance (l : List User) : Decidable (StoreInv l) :=
  inferInstanceAs (Decidable (SortedIds l ∧ PosIds l))

/-- JS `mockedUsers[mockedUsers.length - 1]` (undefined on an empty array). -/
def lastUser? : List User → Option User
  | [] => none
  | [u] => some u
  | _ :: v :: rest => lastUser? (v :: rest)

/-- `mockedUsers.find((user) => user.id === n)` (first match). -/
def findById : List User → Int → Option User
  | [], _ => none
  | u :: rest, n => if u.id = n then some u else findById rest n

/-- `findIndex` followed by `mockedUsers[idx] = f(old)`: replace the first
record with id `n`; `none` when no record matches. -/
def updateById : List User → Int → (User → User) → Option (List User)
  | [], _, _ => none
  | u :: rest, n, f =>
    if u.id = n then some (f u :: rest)
    else (updateById rest n f).map (fun l => u :: l)

/-- `findIndex` followed by `mockedUsers.splice(idx, 1)`. -/
def removeById : List User → Int → Option (List User)
  | [], _ => none
  | u :: rest, n =>
    if u.id = n then some rest
    else (removeById rest n).map (fun l => u :: l)

/-- JS `{ id: computedId, ...body }` — a body `id` key overwrites the
computed one (spread comes last); unknown keys do not fit the record type
and are dropped. -/
def spreadNew (computedId : Int) (b : Body) : User :=
  { id := match b.idField with | some v => v | none => computedId,
    username := b.username,
    displayName := b.displayName }

/-- JS `{ ...old, ...body }`: shallow merge of the body over the record. -/
def jsMerge (old : User) (b : Body) : User :=
  { id := match b.idField with | some v => v | none => old.id,
    username := match b.username with | some s => some s | none => old.username,
    displayName := match b.displayName with | some s => some s | none => old.displayName }

/-! ## Responses -/

/-- The observable responses of the routes. `crash` stands for a thrown
`TypeError` (surfacing as a 500), `badInvalidId` for `index.js`'s plain
`res.status(400).send("Invalid id")`. -/
inductive Resp where
  | okUsers (users : List User)
  | okUser (u : User)
  | ok200
  | created (message : String) (u : User)
  | badRequest (details : List String)
  | badInvalidId
  | notFound
  | crash
deriving DecidableEq, Repr

/-- HTTP status code of a response. -/
def Resp.status : Resp → Nat
  | .okUsers _ => 200
  | .okUser _ => 200
  | .ok200 => 200
  | .created _ _ => 201
  | .badRequest _ => 400
  | .badInvalidId => 400
  | .notFound => 404
  | .crash => 500

/-! ## Validation chains of `validation/userValidation.js` -/

/-- Value a validator.js check sees: `undefined` is stringified to `""`. -/
def optStr (v : Option String) : String := v.getD ""

/-- JS truthiness of an optional string (`undefined` and `""` are falsy). -/
def truthy (v : Option String) : Bool :=
  match v with
  | none => false
  | some s => !(s = "")

/-- `checkUsernameUniqueness`: some record's username equals the value and
its id differs from the path id (`parseInt(req.params.id)`, `null` — here
`none` — on POST; a `NaN` id also never equals a record id, so it is
likewise modelled by `none`). -/
def uniqueHitB (store : List User) (selfId : Option Int) (v : Option String) : Bool :=
  store.any (fun u =>
    decide (u.username = v) &&
      (match selfId with
       | none => true
       | some i => decide (u.id ≠ i)))

/-- The `body("username")` chain of `createUser`/`updateUser`: notEmpty,
isString, isLength 3–20, matches, custom uniqueness.  Without `.bail()` every
failing check contributes one message. -/
def usernameFullErrors (store : List User) (selfId : Option Int) (v : Option String) :
    List String :=
  (if v = none ∨ v = some "" then ["Username is required"] else [])
    ++ (if v = none then ["Username must be a string"] else [])
    ++ (if 3 ≤ (optStr v).length ∧ (optStr v).length ≤ 20 then []
        else ["Username must be between 3 and 20 characters"])
    ++ (if usernamePatternB (optStr v) then []
        else ["Username can only contain letters, numbers, and underscores"])
    ++ (if uniqueHitB store selfId v then ["Username already exists"] else [])

/-- The `body("displayName")` chain of `createUser`/`updateUser`:
notEmpty, isString, isLength 2–50 (the trailing `.trim()` is a sanitizer,
applied by `sanitizeBody`). -/
def displayNameFullErrors (v : Option String) : List String :=
  (if v = none ∨ v = some "" then ["Display name is required"] else [])
    ++ (if v = none then ["Display name must be a string"] else [])
    ++ (if 2 ≤ (optStr v).length ∧ (optStr v).length ≤ 50 then []
        else ["Display name must be between 2 and 50 characters"])

/-- `Object.keys(body)` (canonical order: username, displayName, id, rest). -/
def bodyKeys (b : Body) : List String :=
  (if b.username.isSome then ["username"] else [])
    ++ (if b.displayName.isSome then ["displayName"] else [])
    ++ (if b.idField.isSome then ["id"] else [])
    ++ b.extra

/-- Keys outside the `["username", "displayName"]` whitelist. -/
def invalidFields (b : Body) : List String :=
  (bodyKeys b).filter (fun k => !(k = "username" ∨ k = "displayName"))

/-- The message thrown by the whole-body whitelist check. -/
def invalidFieldsMsg (inv : List String) : String :=
  "Invalid fields: " ++ String.intercalate ", " inv ++
    ". Only username and displayName are allowed."

/-- The `body().custom` whitelist check of `createUser`/`updateUser`. -/
def whitelistErrors (b : Body) : List String :=
  if (invalidFields b).isEmpty then [] else [invalidFieldsMsg (invalidFields b)]

/-- All validation messages of the `createUser`/`updateUser` schema
(they are verbatim duplicates in `userValidation.js`). -/
def fullUserErrors (store : List User) (selfId : Option Int) (b : Body) : List String :=
  usernameFullErrors store selfId b.username
    ++ displayNameFullErrors b.displayName
    ++ whitelistErrors b

/-- The `body("username").optional()` chain of `partialUpdateUser`; the
custom check runs uniqueness only on truthy values. -/
def usernamePartialErrors (store : List User) (selfId : Option Int) (v : Option String) :
    List String :=
  match v with
  | none => []
  | some s =>
    (if 3 ≤ s.length ∧ s.length ≤ 20 then []
     else ["Username must be between 3 and 20 characters"])
      ++ (if usernamePatternB s then []
          else ["Username can only contain letters, numbers, and underscores"])
      ++ (if !(s = "") && uniqueHitB store selfId (some s) then
            ["Username already exists"]
          else [])

/-- The `body("displayName").optional()` chain of `partialUpdateUser`. -/
def displayNamePartialErrors (v : Option String) : List String :=
  match v with
  | none => []
  | some s =>
    if 2 ≤ s.length ∧ s.length ≤ 50 then []
    else ["Display name must be between 2 and 50 characters"]

/-- The whole-body check of `partialUpdateUser`: whitelist, then
at-least-one-field (a single custom function, so at most one throw; the
second condition can only hold when the first does not). -/
def partialWholeErrors (b : Body) : List String :=
  (if (invalidFields b).isEmpty then [] else [invalidFieldsMsg (invalidFields b)])
    ++ (if (bodyKeys b).isEmpty then
          ["At least one field (username or displayName) must be provided for update"]
        else [])

/-- All validation messages of the `partialUpdateUser` schema. -/
def partialUserErrors (store : List User) (selfId : Option Int) (b : Body) : List String :=
  usernamePartialErrors store selfId b.username
    ++ displayNamePartialErrors b.displayName
    ++ partialWholeErrors b

/-- The `.trim()` sanitizer on `displayName` mutates `req.body` in place. -/
def sanitizeBody (b : Body) : Body :=
  { b with displayName := b.displayName.map jsTrim }

/-- `userValidationSchemas.userIdParam`. -/
def idParamErrors (s : String) : List String :=
  if isIntMin1 s then [] else ["ID must be a positive integer"]

/-- `userValidationSchemas.getUsersQuery`: `isIn` on filter, length on value,
and the two cross-field customs. -/
def getUsersQueryErrors (filter? value? : Option String) : List String :=
  (match filter? with
   | none => []
   | some f =>
     if f = "username" ∨ f = "displayName" then []
     else ["Filter must be either 'username' or 'displayName'"])
    ++ (match value? with
        | none => []
        | some v =>
          if 1 ≤ v.length ∧ v.length ≤ 50 then []
          else ["Value must be a string between 1 and 50 characters"])
    ++ (if truthy filter? && !truthy value? then
          ["Value is required when filter is provided"]
        else [])
    ++ (if truthy value? && !truthy filter? then
          ["Filter is required when value is provided"]
        else [])

/-! ## The list-filter operation -/

/-- Field selector of `user[filter]`. -/
inductive FieldKey where
  | username
  | displayName
  | id
  | other
deriving DecidableEq

/-- A JS property value as the filter predicate sees it. -/
inductive JsFieldVal where
  | str (s : String)
  | num (n : Int)
  | absent
deriving DecidableEq

/-- `user[filter]`: the two string fields, the numeric `id`, or `undefined`. -/
def userField (u : User) : FieldKey → JsFieldVal
  | .username => match u.username with | some s => .str s | none => .absent
  | .displayName => match u.displayName with | some s => .str s | none => .absent
  | .id => .num u.id
  | .other => .absent

/-- `x?.includes(v)`: `undefined` short-circuits to a falsy result, a string
does a substring test, and a number throws (`includes` is not a function). -/
def includesTest : JsFieldVal → String → Except Unit Bool
  | .absent, _ => .ok false
  | .str s, v => .ok (strContains s v)
  | .num _, _ => .error ()

/-- `mockedUsers.filter((user) => user[filter]?.includes(value))`; a throw in
the predicate aborts the whole filter. -/
def jsFilterUsers (store : List User) (f : FieldKey) (v : String) :
    Except Unit (List User) :=
  match store with
  | [] => .ok []
  | u :: rest =>
    match includesTest (userField u f) v with
    | .error e => .error e
    | .ok b =>
      match jsFilterUsers rest f v with
      | .error e => .error e
      | .ok l => .ok (if b then u :: l else l)

/-- The non-crashing match semantics: a string field matches by substring,
an absent (or numeric) field does not match. -/
def fieldMatchB (u : User) (f : FieldKey) (v : String) : Bool :=
  match userField u f with
  | .str s => strContains s v
  | _ => false

/-! ## Routes of the validated app (`createTestApp`) -/

/-- Collected errors of the GET-by-id route (`userIdParam` only). -/
def getByIdV (store : List User) (idStr : String) : Resp × List User :=
  if (idParamErrors idStr).isEmpty then
    match jsParseInt idStr with
    | none => (.notFound, store)
    | some n =>
      match findById store n with
      | none => (.notFound, store)
      | some u => (.okUser u, store)
  else (.badRequest (idParamErrors idStr), store)

/-- The field named by the `filter` query parameter. -/
def keyOfStr (f : String) : FieldKey :=
  if f = "username" then .username
  else if f = "displayName" then .displayName
  else if f = "id" then .id
  else .other

/-- GET `/api/users` of the test app. -/
def listV (store : List User) (filter? value? : Option String) : Resp × List User :=
  if (getUsersQueryErrors filter? value?).isEmpty then
    match filter?, value? with
    | some f, some v =>
      (match jsFilterUsers store (keyOfStr f) v with
       | .ok l => (.okUsers l, store)
       | .error _ => (.crash, store))
    | _, _ => (.okUsers store, store)
  else (.badRequest (getUsersQueryErrors filter? value?), store)

/-- Collected errors of the POST route (`createUser` schema; no id param,
so the uniqueness self-exclusion id is `null`). -/
def createValidationErrors (store : List User) (b : Body) : List String :=
  fullUserErrors store none b

/-- POST `/api/users` of the test app: validate, then
`{ id: mockedUsers[mockedUsers.length - 1].id + 1, ...body }` and push. -/
def createV (store : List User) (b : Body) : Resp × List User :=
  if (createValidationErrors store b).isEmpty then
    match lastUser? store with
    | none => (.crash, store)
    | some lastU =>
      let newU := spreadNew (lastU.id + 1) (sanitizeBody b)
      (.created "User created successfully!" newU, store ++ [newU])
  else (.badRequest (createValidationErrors store b), store)

/-- Collected errors of the PUT route (`userIdParam` then `updateUser`). -/
def putValidationErrors (store : List User) (idStr : String) (b : Body) : List String :=
  idParamErrors idStr ++ fullUserErrors store (jsParseInt idStr) b

/-- PUT `/api/users/:id` of the test app: validate, look up, then
`{ id: old.id, ...body }`. -/
def putV (store : List User) (idStr : String) (b : Body) : Resp × List User :=
  if (putValidationErrors store idStr b).isEmpty then
    match jsParseInt idStr with
    | none => (.notFound, store)
    | some n =>
      match updateById store n (fun old => spreadNew old.id (sanitizeBody b)) with
      | none => (.notFound, store)
      | some store' => (.ok200, store')
  else (.badRequest (putValidationErrors store idStr b), store)

/-- Collected errors of the PATCH route (`userIdParam` then
`partialUpdateUser`). -/
def patchValidationErrors (store : List User) (idStr : String) (b : Body) : List String :=
  idParamErrors idStr ++ partialUserErrors store (jsParseInt idStr) b

/-- PATCH `/api/users/:id` of the test app: validate, look up, then
`{ ...old, ...body }`. -/
def patchV (store : List User) (idStr : String) (b : Body) : Resp × List User :=
  if (patchValidationErrors store idStr b).isEmpty then
    match jsParseInt idStr with
    | none => (.notFound, store)
    | some n =>
      match updateById store n (fun old => jsMerge old (sanitizeBody b)) with
      | none => (.notFound, store)
      | some store' => (.ok200, store')
  else (.badRequest (patchValidationErrors store idStr b), store)

/-- DELETE `/api/users/:id` of the test app: validate id, look up, splice. -/
def deleteV (store : List User) (idStr : String) : Resp × List User :=
  if (idParamErrors idStr).isEmpty then
    match jsParseInt idStr with
    | none => (.notFound, store)
    | some n =>
      match removeById store n with
      | none => (.notFound, store)
      | some store' => (.ok200, store')
  else (.badRequest (idParamErrors idStr), store)

/-! ## Routes of `index.js` -/

/-- `resolvedFindUserMiddleware` of `index.js`: 400 on `NaN`, 404 on a
missed lookup. -/
def getByIdRaw (store : List User) (idStr : String) : Resp :=
  match jsParseInt idStr with
  | none => .badInvalidId
  | some n =>
    match findById store n with
    | none => .notFound
    | some u => .okUser u

/-- PUT `/api/users/:id` of `index.js`: middleware then the unvalidated,
unsanitized `{ id: old.id, ...body }`. -/
def putRaw (store : List User) (idStr : String) (b : Body) : Resp × List User :=
  match jsParseInt idStr with
  | none => (.badInvalidId, store)
  | some n =>
    match updateById store n (fun old => spreadNew old.id b) with
    | none => (.notFound, store)
    | some store' => (.ok200, store')

/-- PATCH `/api/users/:id` of `index.js`. -/
def patchRaw (store : List User) (idStr : String) (b : Body) : Resp × List User :=
  match jsParseInt idStr with
  | none => (.badInvalidId, store)
  | some n =>
    match updateById store n (fun old => jsMerge old b) with
    | none => (.notFound, store)
    | some store' => (.ok200, store')

/-- `validateUserCreationSchema` of `utils/validationSchema.js`: notEmpty and
isLength only — no uniqueness check and no whitelist. -/
def indexCreateErrors (b : Body) : List String :=
  (if b.username = none ∨ b.username = some "" then
     ["The username should not be empty"] else [])
    ++ (if 5 ≤ (optStr b.username).length ∧ (optStr b.username).length ≤ 15 then []
        else ["The username must be 5-15 characters"])
    ++ (if b.displayName = none ∨ b.displayName = some "" then
          ["The displayname should not be empty"] else [])
    ++ (if 5 ≤ (optStr b.displayName).length ∧ (optStr b.displayName).length ≤ 32 then []
        else ["The displayname must be 5-15 characters"])

/-- POST `/api/users` of `index.js`: `checkSchema`, then `matchedData` (which
keeps only the two schema fields, silently dropping any others), then
`{ id: mockedUsers[mockedUsers.length - 1].id + 1, ...data }` and push. -/
def postRawIndex (store : List User) (b : Body) : Resp × List User :=
  if (indexCreateErrors b).isEmpty then
    match lastUser? store with
    | none => (.crash, store)
    | some lastU =>
      let data : Body :=
        { username := b.username, displayName := b.displayName,
          idField := none, extra := [] }
      let newU := spreadNew (lastU.id + 1) data
      (.created "User created successfully!" newU, store ++ [newU])
  else (.badRequest (indexCreateErrors b), store)

/-! ## Helper lemmas: the last record and the maximum id -/

theorem lastUser?_isSome : ∀ (l : List User), l ≠ [] → ∃ u, lastUser? l = some u
  | [], h => absurd rfl h
  | [u], _ => ⟨u, rfl⟩
  | _ :: v :: rest, _ => lastUser?_isSome (v :: rest) (by simp)

theorem lastUser?_mem : ∀ {l : List User} {u : User}, lastUser? l = some u → u ∈ l
  | [], _, h => by simp [lastUser?] at h
  | [w], u, h => by
    simp [lastUser?] at h
    simp [h]
  | _ :: v :: rest, u, h =>
    List.mem_cons_of_mem _ (lastUser?_mem (l := v :: rest) h)

theorem sorted_le_last : ∀ (l : List User) (u : User), SortedIds l → lastUser? l = some u →
    ∀ x ∈ idsOf l, x ≤ u.id
  | [], _, _, h => by simp [lastUser?] at h
  | [a], u, _, h => by
    simp [lastUser?] at h
    subst h
    simp [idsOf]
  | a :: b :: rest, u, hs, h => by
    have hs1 : List.Pairwise (fun x y => x < y) (a.id :: idsOf (b :: rest)) := hs
    have hlast : lastUser? (b :: rest) = some u := h
    have ih := sorted_le_last (b :: rest) u hs1.of_cons hlast
    intro x hx
    rcases List.mem_cons.mp hx with hxa | hxrest
    · subst hxa
      have huid : u.id ∈ idsOf (b :: rest) :=
        List.mem_map_of_mem _ (lastUser?_mem hlast)
      exact le_of_lt (List.rel_of_pairwise_cons hs1 huid)
    · exact ih x hxrest

theorem le_foldr_max : ∀ (xs : List Int) (x : Int), x ∈ xs → x ≤ xs.foldr max 0
  | [], x, h => by simp at h
  | a :: rest, x, h => by
    rcases List.mem_cons.mp h with h | h
    · subst h
      exact le_max_left _ _
    · exact le_trans (le_foldr_max rest x h) (le_max_right _ _)

theorem foldr_max_le : ∀ (xs : List Int) (m : Int), (∀ x ∈ xs, x ≤ m) → 0 ≤ m →
    xs.foldr max 0 ≤ m
  | [], _, _, h0 => h0
  | a :: rest, m, h, h0 => by
    simp only [List.foldr_cons]
    exact max_le (h a (by simp))
      (foldr_max_le rest m (fun x hx => h x (List.mem_cons_of_mem _ hx)) h0)

theorem maxId_eq_last (l : List User) (u : User) (hs : SortedIds l) (hp : PosIds l)
    (h : lastUser? l = some u) : maxId l = u.id := by
  have hub := sorted_le_last l u hs h
  have humem : u.id ∈ idsOf l := List.mem_map_of_mem _ (lastUser?_mem h)
  have hpos : (1 : Int) ≤ u.id := hp u.id humem
  unfold maxId
  exact le_antisymm (foldr_max_le _ _ hub (by omega)) (le_foldr_max _ _ humem)

theorem mem_le_maxId (l : List User) (x : Int) (hx : x ∈ idsOf l) : x ≤ maxId l :=
  le_foldr_max _ _ hx

theorem sortedIds_append (l : List User) (w : User) (hs : SortedIds l)
    (hlt : ∀ x ∈ idsOf l, x < w.id) : SortedIds (l ++ [w]) := by
  have hmap : idsOf (l ++ [w]) = idsOf l ++ [w.id] := by simp [idsOf]
  unfold SortedIds
  rw [hmap]
  refine List.pairwise_append.mpr ⟨hs, List.pairwise_singleton _ _, ?_⟩
  intro a ha b hb
  rw [List.mem_singleton] at hb
  subst hb
  exact hlt a ha

theorem posIds_append (l : List User) (w : User) (hp : PosIds l) (hw : 1 ≤ w.id) :
    PosIds (l ++ [w]) := by
  intro i hi
  have : idsOf (l ++ [w]) = idsOf l ++ [w.id] := by simp [idsOf]
  rw [this, List.mem_append, List.mem_singleton] at hi
  rcases hi with hi | hi
  · exact hp i hi
  · subst hi
    exact hw

/-! ## Helper lemmas: lookup, update, removal -/

theorem findById_eq_none : ∀ (l : List User) (n : Int),
    findById l n = none ↔ ∀ u ∈ l, u.id ≠ n
  | [], n => by simp [findById]
  | u :: rest, n => by
    by_cases h : u.id = n
    · simp [findById, h]
    · simp [findById, h, findById_eq_none rest n]

theorem findById_append_fresh (x : User) (n : Int) (hxn : x.id = n) : ∀ (l : List User),
    (∀ u ∈ l, u.id ≠ n) → findById (l ++ [x]) n = some x
  | [], _ => by simp [findById, hxn]
  | u :: rest, h => by
    rw [List.cons_append, findById, if_neg (h u (by simp))]
    exact findById_append_fresh x n hxn rest (fun v hv => h v (List.mem_cons_of_mem _ hv))

theorem updateById_eq_none : ∀ (l : List User) (n : Int) (f : User → User),
    updateById l n f = none ↔ ∀ u ∈ l, u.id ≠ n
  | [], n, f => by simp [updateById]
  | u :: rest, n, f => by
    by_cases h : u.id = n
    · simp [updateById, h]
    · simp [updateById, h, Option.map_eq_none', updateById_eq_none rest n f]

theorem updateById_some_idsOf (f : User → User) (hf : ∀ u, (f u).id = u.id) :
    ∀ (l : List User) (n : Int) (l' : List User),
      updateById l n f = some l' → idsOf l' = idsOf l
  | [], n, l', h => by simp [updateById] at h
  | u :: rest, n, l', h => by
    rw [updateById] at h
    by_cases hc : u.id = n
    · rw [if_pos hc] at h
      injection h with h
      subst h
      simp [idsOf, hf]
    · rw [if_neg hc] at h
      rcases Option.map_eq_some'.mp h with ⟨l'', h1, h2⟩
      subst h2
      have ih := updateById_some_idsOf f hf rest n l'' h1
      simp only [idsOf, List.map_cons] at ih ⊢
      rw [ih]

theorem removeById_eq_none : ∀ (l : List User) (n : Int),
    removeById l n = none ↔ ∀ u ∈ l, u.id ≠ n
  | [], n => by simp [removeById]
  | u :: rest, n => by
    by_cases h : u.id = n
    · simp [removeById, h]
    · simp [removeById, h, Option.map_eq_none', removeById_eq_none rest n]

theorem removeById_sublist : ∀ (l : List User) (n : Int) (l' : List User),
    removeById l n = some l' → List.Sublist l' l
  | [], n, l', h => by simp [removeById] at h
  | u :: rest, n, l', h => by
    rw [removeById] at h
    by_cases hc : u.id = n
    · rw [if_pos hc] at h
      injection h with h
      subst h
      exact List.sublist_cons_self _ _
    · rw [if_neg hc] at h
      rcases Option.map_eq_some'.mp h with ⟨l'', h1, h2⟩
      subst h2
      exact (removeById_sublist rest n l'' h1).cons₂ u

/-! ## Helper lemmas: validation -/

theorem invalidFields_nil_idField (b : Body) (h : invalidFields b = []) :
    b.idField = none := by
  by_contra hne
  rcases Option.ne_none_iff_exists'.mp hne with ⟨v, hv⟩
  have hmem : "id" ∈ invalidFields b := by
    unfold invalidFields
    rw [List.mem_filter]
    refine ⟨?_, by decide⟩
    unfold bodyKeys
    rw [hv]
    simp
  rw [h] at hmem
  exact absurd hmem (List.not_mem_nil _)

theorem whitelistErrors_nil_invalidFields (b : Body)
    (h : whitelistErrors b = []) : invalidFields b = [] := by
  by_contra hne
  have : (invalidFields b).isEmpty = false := by
    cases hif : invalidFields b with
    | nil => exact absurd hif hne
    | cons a l => rfl
  unfold whitelistErrors at h
  rw [this] at h
  simp at h

theorem fullUserErrors_nil_idField (store : List User) (selfId : Option Int) (b : Body)
    (h : fullUserErrors store selfId b = []) : b.idField = none := by
  unfold fullUserErrors at h
  rcases List.append_eq_nil.mp h with ⟨h1, h2⟩
  exact invalidFields_nil_idField b (whitelistErrors_nil_invalidFields b h2)

theorem partialUserErrors_nil_idField (store : List User) (selfId : Option Int) (b : Body)
    (h : partialUserErrors store selfId b = []) : b.idField = none := by
  unfold partialUserErrors partialWholeErrors at h
  rcases List.append_eq_nil.mp h with ⟨h1, h2⟩
  rcases List.append_eq_nil.mp h2 with ⟨h3, h4⟩
  apply invalidFields_nil_idField b
  by_contra hne
  have hf : (invalidFields b).isEmpty = false := by
    cases hif : invalidFields b with
    | nil => exact absurd hif hne
    | cons a l => rfl
  rw [hf] at h3
  simp at h3

theorem uniqueHitB_false_of_fresh (store : List User) (selfId : Option Int) (s : String)
    (huni : ∀ u ∈ store, u.username ≠ some s) :
    uniqueHitB store selfId (some s) = false := by
  unfold uniqueHitB
  rw [List.any_eq_false]
  intro u hu
  simp only [Bool.and_eq_true, decide_eq_true_eq, not_and]
  intro hname
  exact absurd hname (huni u hu)

theorem uniqueHitB_false_of_self (store : List User) (n : Int) (s : String)
    (hself : ∀ u ∈ store, u.username = some s → u.id = n) :
    uniqueHitB store (some n) (some s) = false := by
  unfold uniqueHitB
  rw [List.any_eq_false]
  intro u hu
  simp only [Bool.and_eq_true, decide_eq_true_eq, not_and, ne_eq, Decidable.not_not]
  intro hname
  exact hself u hu hname

theorem ne_empty_of_len (s : String) (n : Nat) (h : n + 1 ≤ s.length) : ¬ s = "" := by
  intro he
  subst he
  simp at h

theorem createErrors_nil_of_valid (store : List User) (s d : String)
    (hl1 : 3 ≤ s.length) (hl2 : s.length ≤ 20) (hpat : usernamePatternB s = true)
    (huni : ∀ u ∈ store, u.username ≠ some s)
    (hd1 : 2 ≤ d.length) (hd2 : d.length ≤ 50) :
    createValidationErrors store ⟨some s, some d, none, []⟩ = [] := by
  have hs0 : ¬ s = "" := ne_empty_of_len s 2 hl1
  have hd0 : ¬ d = "" := ne_empty_of_len d 1 hd1
  have huniB := uniqueHitB_false_of_fresh store none s huni
  unfold createValidationErrors fullUserErrors usernameFullErrors displayNameFullErrors
    whitelistErrors invalidFields bodyKeys
  simp [optStr, hs0, hd0, hl1, hl2, hpat, hd1, hd2, huniB]

theorem fullErrors_nil_of_self_valid (store : List User) (n : Int) (s d : String)
    (hl1 : 3 ≤ s.length) (hl2 : s.length ≤ 20) (hpat : usernamePatternB s = true)
    (hself : ∀ u ∈ store, u.username = some s → u.id = n)
    (hd1 : 2 ≤ d.length) (hd2 : d.length ≤ 50) :
    fullUserErrors store (some n) ⟨some s, some d, none, []⟩ = [] := by
  have hs0 : ¬ s = "" := ne_empty_of_len s 2 hl1
  have hd0 : ¬ d = "" := ne_empty_of_len d 1 hd1
  have huniB := uniqueHitB_false_of_self store n s hself
  unfold fullUserErrors usernameFullErrors displayNameFullErrors
    whitelistErrors invalidFields bodyKeys
  simp [optStr, hs0, hd0, hl1, hl2, hpat, hd1, hd2, huniB]

theorem partialErrors_nil_of_self_valid (store : List User) (n : Int) (s : String)
    (hl1 : 3 ≤ s.length) (hl2 : s.length ≤ 20) (hpat : usernamePatternB s = true)
    (hself : ∀ u ∈ store, u.username = some s → u.id = n) :
    partialUserErrors store (some n) ⟨some s, none, none, []⟩ = [] := by
  have huniB := uniqueHitB_false_of_self store n s hself
  unfold partialUserErrors usernamePartialErrors displayNamePartialErrors
    partialWholeErrors invalidFields bodyKeys
  simp [hl1, hl2, hpat, huniB]

/-! ## Helper lemmas: route shapes -/

theorem isEmpty_false_of_ne_nil {l : List String} (h : l ≠ []) : l.isEmpty = false := by
  cases hl : l with
  | nil => exact absurd hl h
  | cons a t => rfl

theorem createV_ok (store : List User) (b : Body) (lu : User)
    (he : createValidationErrors store b = []) (hl : lastUser? store = some lu) :
    createV store b
      = (.created "User created successfully!" (spreadNew (lu.id + 1) (sanitizeBody b)),
         store ++ [spreadNew (lu.id + 1) (sanitizeBody b)]) := by
  unfold createV
  rw [he, hl]
  rfl

theorem createV_created_inv (store : List User) (b : Body) (m : String) (u' : User)
    (s' : List User) (h : createV store b = (.created m u', s')) :
    createValidationErrors store b = [] ∧
      ∃ lu, lastUser? store = some lu ∧ b.idField = none ∧
        u'.id = lu.id + 1 ∧ s' = store ++ [u'] := by
  unfold createV at h
  split at h
  case isTrue hc =>
    have he : createValidationErrors store b = [] := List.isEmpty_iff.mp hc
    refine ⟨he, ?_⟩
    split at h
    case h_1 => simp at h
    case h_2 lu hl =>
      have hid : b.idField = none := fullUserErrors_nil_idField store none b he
      simp only [Prod.mk.injEq, Resp.created.injEq] at h
      obtain ⟨⟨hm, hu⟩, hs⟩ := h
      subst hu
      subst hs
      refine ⟨lu, hl, hid, ?_, rfl⟩
      simp [spreadNew, sanitizeBody, hid]
  case isFalse => simp at h

theorem putV_snd_idsOf (store : List User) (idStr : String) (b : Body) :
    idsOf (putV store idStr b).2 = idsOf store := by
  unfold putV
  split
  case isTrue hc =>
    have he : putValidationErrors store idStr b = [] := List.isEmpty_iff.mp hc
    have hid : b.idField = none := by
      unfold putValidationErrors at he
      exact fullUserErrors_nil_idField store _ b (List.append_eq_nil.mp he).2
    split
    · rfl
    case h_2 n hn =>
      split
      · rfl
      case h_2 store' hupd =>
        exact updateById_some_idsOf _
          (fun old => by simp [spreadNew, sanitizeBody, hid]) store n store' hupd
  case isFalse => rfl

theorem patchV_snd_idsOf (store : List User) (idStr : String) (b : Body) :
    idsOf (patchV store idStr b).2 = idsOf store := by
  unfold patchV
  split
  case isTrue hc =>
    have he : patchValidationErrors store idStr b = [] := List.isEmpty_iff.mp hc
    have hid : b.idField = none := by
      unfold patchValidationErrors at he
      exact partialUserErrors_nil_idField store _ b (List.append_eq_nil.mp he).2
    split
    · rfl
    case h_2 n hn =>
      split
      · rfl
      case h_2 store' hupd =>
        exact updateById_some_idsOf _
          (fun old => by simp [jsMerge, sanitizeBody, hid]) store n store' hupd
  case isFalse => rfl

theorem deleteV_snd_cases (store : List User) (idStr : String) :
    (deleteV store idStr).2 = store ∨
      ∃ n store', jsParseInt idStr = some n ∧ removeById store n = some store' ∧
        (deleteV store idStr).2 = store' := by
  unfold deleteV
  split
  case isTrue =>
    split
    · exact Or.inl rfl
    case h_2 n hn =>
      split
      · exact Or.inl rfl
      case h_2 store' hr => exact Or.inr ⟨n, store', hn, hr, rfl⟩
  case isFalse => exact Or.inl rfl

theorem listV_snd (store : List User) (f? v? : Option String) :
    (listV store f? v?).2 = store := by
  unfold listV
  split
  case isTrue =>
    split
    · split <;> rfl
    · rfl
  case isFalse => rfl

theorem getByIdV_snd (store : List User) (idStr : String) :
    (getByIdV store idStr).2 = store := by
  unfold getByIdV
  split
  case isTrue =>
    split
    · rfl
    · split <;> rfl
  case isFalse => rfl

/-- `userIdParam` passes exactly on positive-integer strings. -/
theorem idParamErrors_nil (s : String) (h : isIntMin1 s = true) : idParamErrors s = [] := by
  unfold idParamErrors
  rw [h]
  rfl

/-! ## C1: create assigns 1 + max(existing ids) -/

/-- C1: for every valid create payload whose username is not already taken,
executed against a non-empty store satisfying the reachable-store invariant
(ids strictly increasing and positive; preserved by every operation), the
new record's id equals `1 + max(existing ids)`, the record is appended, and
the response is 201 with the success message and the user. -/
theorem create_id_succ_max (store : List User) (s d : String)
    (hne : store ≠ []) (hs : SortedIds store) (hp : PosIds store)
    (hl1 : 3 ≤ s.length) (hl2 : s.length ≤ 20) (hpat : usernamePatternB s = true)
    (huni : ∀ u ∈ store, u.username ≠ some s)
    (hd1 : 2 ≤ d.length) (hd2 : d.length ≤ 50) :
    createV store ⟨some s, some d, none, []⟩
      = (.created "User created successfully!"
           ⟨maxId store + 1, some s, some (jsTrim d)⟩,
         store ++ [⟨maxId store + 1, some s, some (jsTrim d)⟩]) := by
  obtain ⟨lu, hlu⟩ := lastUser?_isSome store hne
  have he := createErrors_nil_of_valid store s d hl1 hl2 hpat huni hd1 hd2
  have hmax := maxId_eq_last store lu hs hp hlu
  rw [hmax]
  exact createV_ok store ⟨some s, some d, none, []⟩ lu he hlu

/-- C1 witness: the seed store plus the payload of the repository's own
"should create a new user with valid data" test. -/
theorem create_id_succ_max_witness :
    createV seedUsers ⟨some "newuser123", some "New User", none, []⟩
      = (.created "User created successfully!"
           ⟨maxId seedUsers + 1, some "newuser123", some (jsTrim "New User")⟩,
         seedUsers ++ [⟨maxId seedUsers + 1, some "newuser123", some (jsTrim "New User")⟩]) :=
  create_id_succ_max seedUsers "newuser123" "New User" (by decide) (by decide) (by decide)
    (by decide) (by decide) (by decide) (by decide) (by decide) (by decide)

/-! ## C6: insert on an empty store -/

/-- C6: the create handler reads `mockedUsers[mockedUsers.length - 1].id`;
on an empty store this evaluates `undefined.id` and throws a TypeError
(modelled `Resp.crash`, an uncaught 500) instead of returning the defined
InvariantViolation error the specification prescribes; on a non-empty store
the assigned id is `lastRecord.id + 1`. -/
theorem insert_crashes_on_empty_store (b : Body)
    (hv : createValidationErrors [] b = []) :
    createV [] b = (.crash, [])
      ∧ ∀ store lu m u' s', lastUser? store = some lu →
          createV store b = (.created m u', s') → u'.id = lu.id + 1 := by
  constructor
  · unfold createV
    rw [hv]
    rfl
  · intro store lu m u' s' hlast hcr
    rcases createV_created_inv store b m u' s' hcr with ⟨he, lu', hl', hid, hueq, hs2⟩
    rw [hlast] at hl'
    injection hl' with hl'
    rw [hl']
    exact hueq

/-- C6 witness: a payload that passes validation still crashes the handler
when the store has been emptied. -/
theorem insert_crashes_on_empty_store_witness :
    createV [] ⟨some "freshuser", some "Fresh User", none, []⟩ = (.crash, []) :=
  (insert_crashes_on_empty_store ⟨some "freshuser", some "Fresh User", none, []⟩ (by decide)).1

/-! ## C8: the list filter -/

/-- C8 counterexample: filtering on the numeric `id` field crashes — the
optional chain `user[filter]?.includes(value)` only guards null/undefined,
and a number has no `includes` — although the field's string representation
"1" does contain the value "1", so the claimed result would be non-empty. -/
theorem filter_numeric_field_crashes :
    jsFilterUsers seedUsers FieldKey.id "1" = Except.error ()
      ∧ strContains "1" "1" = true :=
  ⟨rfl, by decide⟩

/-- C8 amended: on the string-valued fields the filter returns exactly the
case-sensitive substring matches, and an absent field is a silent non-match
with no crash; the numeric `id` field, however, throws on any non-empty
store (both route validations keep that name from ever reaching the
operation). -/
theorem filter_string_semantics (store : List User) (f : FieldKey) (v : String) :
    (f ≠ FieldKey.id →
      jsFilterUsers store f v = Except.ok (store.filter (fun u => fieldMatchB u f v)))
      ∧ (store ≠ [] → jsFilterUsers store FieldKey.id v = Except.error ()) := by
  constructor
  · intro hf
    induction store with
    | nil => rfl
    | cons u rest ih =>
      have hok : includesTest (userField u f) v = Except.ok (fieldMatchB u f v) := by
        cases f with
        | username => cases hu : u.username <;> simp [userField, includesTest, fieldMatchB, hu]
        | displayName => cases hu : u.displayName <;> simp [userField, includesTest, fieldMatchB, hu]
        | id => exact absurd rfl hf
        | other => rfl
      simp only [jsFilterUsers, hok, ih, List.filter_cons]
  · intro hne
    cases store with
    | nil => exact absurd rfl hne
    | cons u rest => rfl

/-- C8 witness: the repository test's own filter query, and the crash on the
id field, both at the seed store. -/
theorem filter_string_semantics_witness :
    jsFilterUsers seedUsers FieldKey.username "john"
        = Except.ok (seedUsers.filter (fun u => fieldMatchB u FieldKey.username "john"))
      ∧ jsFilterUsers seedUsers FieldKey.id "john" = Except.error () :=
  ⟨(filter_string_semantics seedUsers FieldKey.username "john").1 (by decide),
   (filter_string_semantics seedUsers FieldKey.id "john").2 (by decide)⟩

/-! ## C2: username uniqueness -/

/-- C2 counterexample: `index.js` validates create requests with
`validateUserCreationSchema`, which has no uniqueness check at all; creating
a second "johndoe" against the seed store answers 201 and appends the
duplicate instead of the claimed 400 "Username already exists". -/
theorem index_create_duplicate_201 :
    seedUsers.any (fun u => decide (u.username = some "johndoe")) = true
      ∧ postRawIndex seedUsers ⟨some "johndoe", some "John Doe II", none, []⟩
          = (.created "User created successfully!" ⟨6, some "johndoe", some "John Doe II"⟩,
             seedUsers ++ [⟨6, some "johndoe", some "John Doe II"⟩]) := by
  decide

/-- C2 amended: in the app guarded by `userValidation.js` (the test app)
creating with a username equal to any existing record's yields 400 whose
details carry "Username already exists" and leaves the store unchanged, and
a full or partial update whose body username equals the target record's own
current username (self-exclusion keyed by the path-parameter id) and is
otherwise valid passes validation; `index.js`'s create route, however,
checks no uniqueness (see the counterexample). -/
theorem duplicate_create_rejected_self_update_ok :
    (∀ (store : List User) (b : Body) (s : String),
        b.username = some s → (∃ u ∈ store, u.username = some s) →
          "Username already exists" ∈ createValidationErrors store b
            ∧ createV store b = (.badRequest (createValidationErrors store b), store))
      ∧ (∀ (store : List User) (n : Int) (s d : String),
          3 ≤ s.length → s.length ≤ 20 → usernamePatternB s = true →
          (∀ u ∈ store, u.username = some s → u.id = n) →
          2 ≤ d.length → d.length ≤ 50 →
            fullUserErrors store (some n) ⟨some s, some d, none, []⟩ = []
              ∧ partialUserErrors store (some n) ⟨some s, none, none, []⟩ = []) := by
  constructor
  · intro store b s hbs hdup
    have hhit : uniqueHitB store none b.username = true := by
      rcases hdup with ⟨u, hu, huname⟩
      unfold uniqueHitB
      rw [List.any_eq_true]
      exact ⟨u, hu, by simp [huname, hbs]⟩
    have hmem : "Username already exists" ∈ createValidationErrors store b := by
      unfold createValidationErrors fullUserErrors usernameFullErrors
      rw [hhit]
      simp
    refine ⟨hmem, ?_⟩
    have hf := isEmpty_false_of_ne_nil (List.ne_nil_of_mem hmem)
    unfold createV
    rw [hf]
    rfl
  · intro store n s d hl1 hl2 hpat hself hd1 hd2
    exact ⟨fullErrors_nil_of_self_valid store n s d hl1 hl2 hpat hself hd1 hd2,
           partialErrors_nil_of_self_valid store n s hl1 hl2 hpat hself⟩

/-- C2 witness: duplicate create of "johndoe", and the repository's own
"allow updating with same username (no change)" scenarios at id 1. -/
theorem duplicate_create_rejected_self_update_ok_witness :
    ("Username already exists"
        ∈ createValidationErrors seedUsers ⟨some "johndoe", some "Another John", none, []⟩
      ∧ createV seedUsers ⟨some "johndoe", some "Another John", none, []⟩
          = (.badRequest (createValidationErrors seedUsers
               ⟨some "johndoe", some "Another John", none, []⟩), seedUsers))
      ∧ fullUserErrors seedUsers (some 1)
          ⟨some "johndoe", some "Updated Display Name", none, []⟩ = []
      ∧ partialUserErrors seedUsers (some 1) ⟨some "johndoe", none, none, []⟩ = [] :=
  ⟨duplicate_create_rejected_self_update_ok.1 seedUsers
      ⟨some "johndoe", some "Another John", none, []⟩ "johndoe" rfl
      ⟨⟨1, some "johndoe", some "John Doe"⟩, by decide, rfl⟩,
   duplicate_create_rejected_self_update_ok.2 seedUsers 1 "johndoe" "Updated Display Name"
      (by decide) (by decide) (by decide) (by decide) (by decide) (by decide)⟩

/-! ## C3: updates of a non-existent id -/

/-- C3: a full or partial update whose id parses to an integer matching no
record leaves the store exactly unchanged in both app variants; `index.js`
(which runs no validation on these routes) answers 404 unconditionally,
and the test app answers 404 whenever its validation passes (when it does
not, the failure is a 400 and the store is still untouched). -/
theorem update_nonexistent_404_store_unchanged (store : List User) (idStr : String)
    (b : Body) (n : Int) (hp : jsParseInt idStr = some n)
    (hn : ∀ u ∈ store, u.id ≠ n) :
    ((putV store idStr b).2 = store
      ∧ (putValidationErrors store idStr b = [] → putV store idStr b = (.notFound, store)))
      ∧ ((patchV store idStr b).2 = store
        ∧ (patchValidationErrors store idStr b = []
            → patchV store idStr b = (.notFound, store)))
      ∧ putRaw store idStr b = (.notFound, store)
      ∧ patchRaw store idStr b = (.notFound, store) := by
  have hupd : ∀ f, updateById store n f = none :=
    fun f => (updateById_eq_none store n f).mpr hn
  refine ⟨⟨?_, ?_⟩, ⟨?_, ?_⟩, ?_, ?_⟩
  · by_cases he : putValidationErrors store idStr b = []
    · simp [putV, he, hp, hupd]
    · simp [putV, isEmpty_false_of_ne_nil he]
  · intro he
    simp [putV, he, hp, hupd]
  · by_cases he : patchValidationErrors store idStr b = []
    · simp [patchV, he, hp, hupd]
    · simp [patchV, isEmpty_false_of_ne_nil he]
  · intro he
    simp [patchV, he, hp, hupd]
  · simp [putRaw, hp, hupd]
  · simp [patchRaw, hp, hupd]

/-- C3 witness: the repository's own "should return 404 for non-existent
user" scenario, id 999 against the seed store. -/
theorem update_nonexistent_404_store_unchanged_witness :
    putRaw seedUsers "999" ⟨some "updateduser", some "Updated User", none, []⟩
        = (.notFound, seedUsers)
      ∧ (putV seedUsers "999" ⟨some "updateduser", some "Updated User", none, []⟩).2
          = seedUsers :=
  ⟨(update_nonexistent_404_store_unchanged seedUsers "999"
      ⟨some "updateduser", some "Updated User", none, []⟩ 999 (by decide) (by decide)).2.2.1,
   (update_nonexistent_404_store_unchanged seedUsers "999"
      ⟨some "updateduser", some "Updated User", none, []⟩ 999 (by decide) (by decide)).1.1⟩

/-! ## C5: the body whitelist -/

/-- C5 counterexample: `index.js`'s create accepts a body carrying an extra
`email` key — `checkSchema(validateUserCreationSchema)` validates only the
two schema fields and `matchedData` silently drops the rest — answering 201
and appending to the store instead of the claimed 400 without mutation. -/
theorem index_create_extra_field_201 :
    invalidFields ⟨some "hello", some "World", none, ["email"]⟩ = ["email"]
      ∧ postRawIndex seedUsers ⟨some "hello", some "World", none, ["email"]⟩
          = (.created "User created successfully!" ⟨6, some "hello", some "World"⟩,
             seedUsers ++ [⟨6, some "hello", some "World"⟩]) := by
  decide

/-- C5 amended: in the routes guarded by `userValidation.js` (create, full
update and partial update of the test app) a body with any key outside
whitelist yields 400 whose details carry the message listing the
offending keys, and the store is untouched; `index.js`'s create silently
drops such keys (counterexample) and its PUT/PATCH routes run no body
validation at all. -/
theorem whitelist_rejects_unknown_fields (store : List User) (idStr : String) (b : Body)
    (hinv : invalidFields b ≠ []) :
    (invalidFieldsMsg (invalidFields b) ∈ createValidationErrors store b
      ∧ createV store b = (.badRequest (createValidationErrors store b), store))
      ∧ (invalidFieldsMsg (invalidFields b) ∈ putValidationErrors store idStr b
        ∧ putV store idStr b = (.badRequest (putValidationErrors store idStr b), store))
      ∧ (invalidFieldsMsg (invalidFields b) ∈ patchValidationErrors store idStr b
        ∧ patchV store idStr b = (.badRequest (patchValidationErrors store idStr b), store)) := by
  have hie := isEmpty_false_of_ne_nil hinv
  have hwl : whitelistErrors b = [invalidFieldsMsg (invalidFields b)] := by
    unfold whitelistErrors
    rw [hie]
    rfl
  have hmem1 : invalidFieldsMsg (invalidFields b) ∈ createValidationErrors store b := by
    unfold createValidationErrors fullUserErrors
    rw [hwl]
    simp
  have hmem2 : invalidFieldsMsg (invalidFields b) ∈ putValidationErrors store idStr b := by
    unfold putValidationErrors fullUserErrors
    rw [hwl]
    simp
  have hmem3 : invalidFieldsMsg (invalidFields b) ∈ patchValidationErrors store idStr b := by
    unfold patchValidationErrors partialUserErrors partialWholeErrors
    rw [hie]
    simp
  refine ⟨⟨hmem1, ?_⟩, ⟨hmem2, ?_⟩, ⟨hmem3, ?_⟩⟩
  · have hf := isEmpty_false_of_ne_nil (List.ne_nil_of_mem hmem1)
    unfold createV
    rw [hf]
    rfl
  · have hf := isEmpty_false_of_ne_nil (List.ne_nil_of_mem hmem2)
    unfold putV
    rw [hf]
    rfl
  · have hf := isEmpty_false_of_ne_nil (List.ne_nil_of_mem hmem3)
    unfold patchV
    rw [hf]
    rfl

/-- C5 witness: the repository test's own invalid-field PATCH body against
the seed store. -/
theorem whitelist_rejects_unknown_fields_witness :
    invalidFieldsMsg (invalidFields ⟨some "patcheduser", none, none, ["email"]⟩)
        ∈ patchValidationErrors seedUsers "1" ⟨some "patcheduser", none, none, ["email"]⟩
      ∧ patchV seedUsers "1" ⟨some "patcheduser", none, none, ["email"]⟩
          = (.badRequest (patchValidationErrors seedUsers "1"
               ⟨some "patcheduser", none, none, ["email"]⟩), seedUsers) :=
  (whitelist_rejects_unknown_fields seedUsers "1" ⟨some "patcheduser", none, none, ["email"]⟩
    (by decide)).2.2

/-! ## C7: id format validation -/

/-- C7 counterexample: in `index.js` the only id-format guard is
`isNaN(parseInt(id))`; `parseInt("0")` is 0, not NaN, so GET `/api/users/0`
reaches the lookup and answers 404-after-lookup, not the claimed 400. -/
theorem index_get_zero_id_404 :
    isIntMin1 "0" = false ∧ getByIdRaw seedUsers "0" = .notFound
      ∧ (getByIdRaw seedUsers "0").status = 404 := by
  decide

/-- C7 amended: on routes guarded by `userIdParam` (all four id routes of
the test app) an id that is not a positive integer — non-numeric, zero, or
negative — is rejected with 400 before any lookup and the store is
untouched; `index.js` rejects with 400 only ids whose `parseInt` is `NaN`,
and zero or negative numeric ids there fall through to the 404 lookup. -/
theorem invalid_id_format_400 (store : List User) (idStr : String) (b : Body)
    (h : isIntMin1 idStr = false) :
    getByIdV store idStr = (.badRequest ["ID must be a positive integer"], store)
      ∧ deleteV store idStr = (.badRequest ["ID must be a positive integer"], store)
      ∧ ("ID must be a positive integer" ∈ putValidationErrors store idStr b
        ∧ putV store idStr b = (.badRequest (putValidationErrors store idStr b), store))
      ∧ ("ID must be a positive integer" ∈ patchValidationErrors store idStr b
        ∧ patchV store idStr b = (.badRequest (patchValidationErrors store idStr b), store))
      ∧ (jsParseInt idStr = none → getByIdRaw store idStr = .badInvalidId) := by
  have hid : idParamErrors idStr = ["ID must be a positive integer"] := by
    unfold idParamErrors
    rw [h]
    rfl
  have hmemP : "ID must be a positive integer" ∈ putValidationErrors store idStr b := by
    unfold putValidationErrors
    rw [hid]
    simp
  have hmemQ : "ID must be a positive integer" ∈ patchValidationErrors store idStr b := by
    unfold patchValidationErrors
    rw [hid]
    simp
  refine ⟨?_, ?_, ⟨hmemP, ?_⟩, ⟨hmemQ, ?_⟩, ?_⟩
  · unfold getByIdV
    rw [hid]
    rfl
  · unfold deleteV
    rw [hid]
    rfl
  · have hf := isEmpty_false_of_ne_nil (List.ne_nil_of_mem hmemP)
    unfold putV
    rw [hf]
    rfl
  · have hf := isEmpty_false_of_ne_nil (List.ne_nil_of_mem hmemQ)
    unfold patchV
    rw [hf]
    rfl
  · intro hn
    unfold getByIdRaw
    rw [hn]

/-- C7 witness: the repository test's own non-numeric id "abc". -/
theorem invalid_id_format_400_witness :
    getByIdV seedUsers "abc" = (.badRequest ["ID must be a positive integer"], seedUsers)
      ∧ getByIdRaw seedUsers "abc" = .badInvalidId :=
  ⟨(invalid_id_format_400 seedUsers "abc" ⟨none, none, none, []⟩ (by decide)).1,
   (invalid_id_format_400 seedUsers "abc" ⟨none, none, none, []⟩ (by decide)).2.2.2.2
     (by decide)⟩

/-! ## C9: create / get-by-id round trip -/

/-- C9 counterexample: the `.trim()` sanitizer of the `createUser` chain
rewrites `req.body.displayName` before the handler stores it, so a
displayName submitted with surrounding whitespace comes back trimmed — not
the submitted value, contrary to the claim's parenthetical. -/
theorem roundtrip_trims_displayName :
    createV seedUsers ⟨some "testuser", some "  Test User  ", none, []⟩
        = (.created "User created successfully!" ⟨6, some "testuser", some "Test User"⟩,
           seedUsers ++ [⟨6, some "testuser", some "Test User"⟩])
      ∧ getByIdV (seedUsers ++ [⟨6, some "testuser", some "Test User"⟩]) "6"
          = (.okUser ⟨6, some "testuser", some "Test User"⟩,
             seedUsers ++ [⟨6, some "testuser", some "Test User"⟩])
      ∧ some "Test User" ≠ some "  Test User  " := by
  decide

/-- C9 amended: for every valid create payload against a non-empty store
with the reachable-store invariant, create followed by get-by-id of the
assigned id returns exactly the submitted username, the assigned id, and
the submitted displayName trimmed of leading/trailing whitespace (hence
exactly the submitted pair whenever the displayName has none). -/
theorem create_get_roundtrip_trimmed (store : List User) (s d idStr : String)
    (hne : store ≠ []) (hs : SortedIds store) (hp : PosIds store)
    (hl1 : 3 ≤ s.length) (hl2 : s.length ≤ 20) (hpat : usernamePatternB s = true)
    (huni : ∀ u ∈ store, u.username ≠ some s)
    (hd1 : 2 ≤ d.length) (hd2 : d.length ≤ 50)
    (hidp : isIntMin1 idStr = true) (hid : jsParseInt idStr = some (maxId store + 1)) :
    (createV store ⟨some s, some d, none, []⟩).2
        = store ++ [⟨maxId store + 1, some s, some (jsTrim d)⟩]
      ∧ getByIdV (store ++ [⟨maxId store + 1, some s, some (jsTrim d)⟩]) idStr
          = (.okUser ⟨maxId store + 1, some s, some (jsTrim d)⟩,
             store ++ [⟨maxId store + 1, some s, some (jsTrim d)⟩]) := by
  obtain ⟨lu, hlu⟩ := lastUser?_isSome store hne
  have he := createErrors_nil_of_valid store s d hl1 hl2 hpat huni hd1 hd2
  have hmax := maxId_eq_last store lu hs hp hlu
  constructor
  · rw [hmax, createV_ok store ⟨some s, some d, none, []⟩ lu he hlu]
    rfl
  · have hfresh : ∀ u ∈ store, u.id ≠ maxId store + 1 := by
      intro u hu heq
      have hle := mem_le_maxId store u.id (List.mem_map_of_mem _ hu)
      omega
    have hfind := findById_append_fresh ⟨maxId store + 1, some s, some (jsTrim d)⟩
      (maxId store + 1) rfl store hfresh
    simp [getByIdV, idParamErrors_nil idStr hidp, hid, hfind]

/-- C9 witness: id 6 after a create against the seed store. -/
theorem create_get_roundtrip_trimmed_witness :
    (createV seedUsers ⟨some "newbie_7", some "  Spaced Out  ", none, []⟩).2
        = seedUsers ++ [⟨maxId seedUsers + 1, some "newbie_7",
             some (jsTrim "  Spaced Out  ")⟩]
      ∧ getByIdV (seedUsers ++ [⟨maxId seedUsers + 1, some "newbie_7",
             some (jsTrim "  Spaced Out  ")⟩]) "6"
          = (.okUser ⟨maxId seedUsers + 1, some "newbie_7", some (jsTrim "  Spaced Out  ")⟩,
             seedUsers ++ [⟨maxId seedUsers + 1, some "newbie_7",
               some (jsTrim "  Spaced Out  ")⟩]) :=
  create_get_roundtrip_trimmed seedUsers "newbie_7" "  Spaced Out  " "6" (by decide)
    (by decide) (by decide) (by decide) (by decide) (by decide) (by decide) (by decide)
    (by decide) (by decide) (by decide)

/-! ## C4: id reuse and renumbering -/

/-- C4 counterexample: deleting the record with the maximum id (5) and then
creating assigns `lastRecord.id + 1 = 5` again — the deleted id is reused,
refuting "never assigned again". -/
theorem deleted_id_reused :
    deleteV seedUsers "5" = (.ok200, seedUsers.take 4)
      ∧ (5 : Int) ∈ idsOf seedUsers
      ∧ (5 : Int) ∉ idsOf (seedUsers.take 4)
      ∧ (createV (seedUsers.take 4) ⟨some "newuser", some "New User", none, []⟩).2
          = seedUsers.take 4 ++ [⟨5, some "newuser", some "New User"⟩] := by
  decide

/-- C4 amended: surviving records' ids are never renumbered by any
operation, and a newly created id never collides with any id currently in
the store; but an id deleted while it was the store's last (maximum) id can
be assigned again by a later create (counterexample). -/
theorem ids_fresh_and_never_renumbered (store : List User) (b : Body) (idStr : String)
    (hs : SortedIds store) :
    (∀ m u' s', createV store b = (.created m u', s') →
        u'.id ∉ idsOf store ∧ idsOf s' = idsOf store ++ [u'.id])
      ∧ idsOf (putV store idStr b).2 = idsOf store
      ∧ idsOf (patchV store idStr b).2 = idsOf store
      ∧ List.Sublist (idsOf (deleteV store idStr).2) (idsOf store) := by
  refine ⟨?_, putV_snd_idsOf store idStr b, patchV_snd_idsOf store idStr b, ?_⟩
  · intro m u' s' h
    rcases createV_created_inv store b m u' s' h with ⟨he, lu, hlu, hidf, hueq, hseq⟩
    have hub := sorted_le_last store lu hs hlu
    constructor
    · intro hmem
      have hle := hub u'.id hmem
      omega
    · subst hseq
      simp [idsOf]
  · rcases deleteV_snd_cases store idStr with h | ⟨n, store', hpn, hrem, heq⟩
    · rw [h]
    · rw [heq]
      exact (removeById_sublist store n store' hrem).map (fun u => u.id)

/-- C4 witness: a full update and a delete at id 3 of the seed store. -/
theorem ids_fresh_and_never_renumbered_witness :
    idsOf (putV seedUsers "3" ⟨some "renamed_user", some "Renamed", none, []⟩).2
        = idsOf seedUsers
      ∧ List.Sublist (idsOf (deleteV seedUsers "3").2) (idsOf seedUsers) :=
  ⟨(ids_fresh_and_never_renumbered seedUsers ⟨some "renamed_user", some "Renamed", none, []⟩
      "3" (by decide)).2.1,
   (ids_fresh_and_never_renumbered seedUsers ⟨some "renamed_user", some "Renamed", none, []⟩
      "3" (by decide)).2.2.2⟩

/-! ## C10: the store ordering invariant -/

/-- C10 counterexample: `index.js`'s PUT builds `{ id: old.id, ...body }`,
so a body carrying an `id` key overwrites the preserved id (the spread comes
last); a PUT at id 1 with body id 2 renumbers the record and leaves the
store with the duplicate id sequence [2, 2, 3, 4, 5], no longer strictly
increasing. -/
theorem index_put_breaks_sorted_ids :
    StoreInv seedUsers
      ∧ (putRaw seedUsers "1" ⟨some "aaaa", some "bbbb", some 2, []⟩).1 = .ok200
      ∧ idsOf (putRaw seedUsers "1" ⟨some "aaaa", some "bbbb", some 2, []⟩).2 = [2, 2, 3, 4, 5]
      ∧ ¬ SortedIds (putRaw seedUsers "1" ⟨some "aaaa", some "bbbb", some 2, []⟩).2 := by
  decide

/-- C10 amended: every operation of the validated app — list, get-by-id,
create, full update, partial update, delete — preserves the invariant that
store ids strictly increase (hence are pairwise distinct) and stay positive,
and under it the last record carries the maximum id, which is what makes
`lastRecord.id + 1` coincide with `1 + max(existing ids)`; `index.js`'s
unvalidated PUT/PATCH can break the invariant when the body carries an `id`
key (counterexample). -/
theorem store_invariant_preserved (store : List User) (b : Body) (idStr : String)
    (f? v? : Option String) (hinv : StoreInv store) :
    StoreInv (listV store f? v?).2
      ∧ StoreInv (getByIdV store idStr).2
      ∧ StoreInv (createV store b).2
      ∧ StoreInv (putV store idStr b).2
      ∧ StoreInv (patchV store idStr b).2
      ∧ StoreInv (deleteV store idStr).2
      ∧ (∀ lu, lastUser? store = some lu → lu.id = maxId store) := by
  obtain ⟨hs, hp⟩ := hinv
  refine ⟨?_, ?_, ?_, ?_, ?_, ?_, ?_⟩
  · rw [listV_snd]
    exact ⟨hs, hp⟩
  · rw [getByIdV_snd]
    exact ⟨hs, hp⟩
  · by_cases he : createValidationErrors store b = []
    · cases hl : lastUser? store with
      | none =>
        unfold createV
        rw [he, hl]
        exact ⟨hs, hp⟩
      | some lu =>
        rw [createV_ok store b lu he hl]
        have hidf : b.idField = none := fullUserErrors_nil_idField store none b he
        have hub := sorted_le_last store lu hs hl
        have hlupos : (1 : Int) ≤ lu.id :=
          hp lu.id (List.mem_map_of_mem _ (lastUser?_mem hl))
        have hidval : (spreadNew (lu.id + 1) (sanitizeBody b)).id = lu.id + 1 := by
          simp [spreadNew, sanitizeBody, hidf]
        constructor
        · apply sortedIds_append _ _ hs
          intro x hx
          rw [hidval]
          have hle := hub x hx
          omega
        · apply posIds_append _ _ hp
          rw [hidval]
          omega
    · have hf := isEmpty_false_of_ne_nil he
      unfold createV
      rw [hf]
      exact ⟨hs, hp⟩
  · have hids := putV_snd_idsOf store idStr b
    constructor
    · unfold SortedIds
      rw [hids]
      exact hs
    · unfold PosIds
      rw [hids]
      exact hp
  · have hids := patchV_snd_idsOf store idStr b
    constructor
    · unfold SortedIds
      rw [hids]
      exact hs
    · unfold PosIds
      rw [hids]
      exact hp
  · rcases deleteV_snd_cases store idStr with h | ⟨n, store', hpn, hrem, heq⟩
    · rw [h]
      exact ⟨hs, hp⟩
    · rw [heq]
      have hsub := (removeById_sublist store n store' hrem).map (fun u => u.id)
      exact ⟨hs.sublist hsub, fun i hi => hp i (hsub.mem hi)⟩
  · intro lu hlu
    exact (maxId_eq_last store lu hs hp hlu).symm

/-- C10 witness: a delete and a create against the seed store keep the
invariant, and the seed's last record carries the maximum id. -/
theorem store_invariant_preserved_witness :
    StoreInv (deleteV seedUsers "2").2
      ∧ StoreInv (createV seedUsers ⟨some "sixthuser", some "Sixth User", none, []⟩).2 :=
  ⟨(store_invariant_preserved seedUsers ⟨some "sixthuser", some "Sixth User", none, []⟩
      "2" none none (by decide)).2.2.2.2.2.1,
   (store_invariant_preserved seedUsers ⟨some "sixthuser", some "Sixth User", none, []⟩
      "2" none none (by decide)).2.2.1⟩
